import Mathlib

/-!
Shallow embedding of the nostr-relaypool subscription multiplexer
(src/relay-pool.ts).  Pure helpers that live in modules outside src/
(merge-similar-filters.ts, group-filters-by-relay.ts) are modelled from the
spec and marked as such.  Callbacks are represented by opaque numeric ids;
relay connections, wire subscriptions and armed timers are explicit records
so that the scheduler's bookkeeping can be stated and proved.
-/

/-- A nostr filter as described by the spec data model: optional identity,
author and kind lists, optional time range, optional limit, optional per-filter
relay override and cache-skip flag. -/
structure NostrFilter where
  ids : Option (List String) := none
  authors : Option (List String) := none
  kinds : Option (List Nat) := none
  sinceTime : Option Nat := none
  untilTime : Option Nat := none
  limit : Option Nat := none
  relay : Option String := none
  noCache : Option Bool := none
deriving DecidableEq, Repr

/-- Modelled from the spec: a filter is dropped by the merge step when it is
structurally empty (no constraining fields) or one of its constraining list
fields is present but empty (it can never match). -/
def isEmptyFilter (f : NostrFilter) : Bool :=
  decide ((f.ids = none ∧ f.authors = none ∧ f.kinds = none ∧
    f.sinceTime = none ∧ f.untilTime = none) ∨
   f.ids = some [] ∨ f.authors = some [] ∨ f.kinds = some [])

def listUnion (a b : List String) : List String :=
  a ++ b.filter (fun x => !decide (x ∈ a))

/-- Modelled from the spec: two filters merge when they are equal or differ
only in their identity lists, in which case the identity lists are unioned. -/
def tryMerge (f g : NostrFilter) : Option NostrFilter :=
  if f = g then some f
  else
    match f.ids, g.ids with
    | some a, some b =>
      if ({f with ids := none} : NostrFilter) = {g with ids := none} then
        some {f with ids := some (listUnion a b)}
      else none
    | _, _ => none

def insertMerge (acc : List NostrFilter) (f : NostrFilter) : List NostrFilter :=
  match acc with
  | [] => [f]
  | g :: rest =>
    match tryMerge g f with
    | some m => m :: rest
    | none => g :: insertMerge rest f

/-- Modelled from the spec: merge-similar-filters.ts is not in src/.  The spec
(4.2 NostrFilter Merge) asks to drop empty filters and merge filters that differ
only in a combinable field (identity lists). -/
def mergeSimilarAndRemoveEmptyFilters (filters : List NostrFilter) : List NostrFilter :=
  (filters.filter (fun f => !isEmptyFilter f)).foldl insertMerge []

/-- The unique helper from src/relay-pool.ts line 11: spread of a Set built
from the array, i.e. first occurrences in order. -/
def unique (arr : List String) : List String :=
  arr.foldl (fun acc x => if x ∈ acc then acc else acc ++ [x]) []

/-- Callbacks are opaque: an OnEvent callback is identified by a number. -/
abbrev OnEventId := Nat

/-- A relay-to-filters mapping with insertion order, as a Map would hold it. -/
abbrev FilterMap := List (String × List NostrFilter)

def mapInsertAppend (m : FilterMap) (k : String) (v : List NostrFilter) : FilterMap :=
  match m with
  | [] => [(k, v)]
  | (k1, v1) :: rest =>
    if k1 = k then (k1, v1 ++ v) :: rest else (k1, v1) :: mapInsertAppend rest k v

/-- Modelled from the spec: group-filters-by-relay.ts is not in src/.  Per the
spec (4.3 Relay Router), each filter resolves to its own relay override when
present, otherwise to the request's relay list, and filters are accumulated
per relay; the deduped callback wraps the caller's own callback (kept as the
same opaque id here; the cache short-circuit is outside the claims). -/
def groupFiltersByRelayAndEmitCacheHits (filters : List NostrFilter)
    (relays : List String) (onEvent : OnEventId) : OnEventId × FilterMap :=
  (onEvent,
    filters.foldl (fun m f =>
      match f.relay with
      | some r => mapInsertAppend m r [f]
      | none => relays.foldl (fun m2 r => mapInsertAppend m2 r [f]) m) [])

/-- Modelled from the spec: group-filters-by-relay.ts is not in src/.  Per the
spec (4.1 FlushNow), the whole pending batch becomes a single merged callback
(the list of all entry callbacks) and a single relay-to-filters mapping. -/
def batchFiltersByRelay (batch : List (OnEventId × FilterMap)) :
    List OnEventId × FilterMap :=
  (batch.map Prod.fst,
    batch.foldl (fun m e =>
      e.2.foldl (fun m2 kv => mapInsertAppend m2 kv.1 kv.2) m) [])

/-- One relay connection instance.  noticeWired records that the connect
promise resolved and the notice forwarder of addOrGetRelay was installed;
errorHandlers and disconnectHandlers hold callback ids wired by onerror and
ondisconnect. -/
structure RelayInstance where
  id : Nat
  url : String
  noticeWired : Bool
  errorHandlers : List Nat
  disconnectHandlers : List Nat
deriving DecidableEq, Repr

/-- One wire subscription opened by a flush. -/
structure WireSub where
  id : Nat
  relay : String
  filters : List NostrFilter
  onEvent : List OnEventId
  hasOnEose : Bool
  active : Bool
deriving DecidableEq, Repr

/-- The pool state: the fields of class RelayPool plus an explicit world of
armed timers (timers), a fresh-id counter, the wire subscriptions opened so
far and the publish log.  minMaxDelayms = none models Infinity. -/
structure PoolState where
  relayByUrl : List (String × RelayInstance) := []
  noticecbs : List Nat := []
  minMaxDelayms : Option Nat := none
  filtersToSubscribe : List (OnEventId × FilterMap) := []
  timer : Option Nat := none
  timers : List (Nat × Nat) := []
  nextId : Nat := 0
  wireSubs : List WireSub := []
  publishLog : List (Nat × String) := []
deriving DecidableEq, Repr

def initPool : PoolState := {}

def lookupUrl (l : List (String × RelayInstance)) (url : String) :
    Option RelayInstance :=
  match l with
  | [] => none
  | (k, v) :: rest => if k = url then some v else lookupUrl rest url

/-- src lines 38-56: return the existing instance for the url, else create a
fresh one and register it (the notice wiring happens when connect resolves,
modelled by connectOk below). -/
def addOrGetRelay (s : PoolState) (url : String) : PoolState × RelayInstance :=
  match lookupUrl s.relayByUrl url with
  | some inst => (s, inst)
  | none =>
    let inst : RelayInstance :=
      { id := s.nextId, url := url, noticeWired := false,
        errorHandlers := [], disconnectHandlers := [] }
    ({ s with
        nextId := s.nextId + 1
        relayByUrl := s.relayByUrl ++ [(url, inst)] }, inst)

/-- The connect promise of a relay resolves successfully: the handler at src
lines 45-50 installs the notice forwarder to the pool's noticecbs. -/
def connectOk (s : PoolState) (url : String) : PoolState :=
  { s with relayByUrl := s.relayByUrl.map (fun e =>
      if e.1 = url then (e.1, { e.2 with noticeWired := true }) else e) }

/-- src lines 67-93 (#subscribeRelay): merge the filters, return without doing
anything when nothing is left, else get-or-create the connection and open one
wire subscription. -/
def subscribeRelay (s : PoolState) (relay : String) (filters : List NostrFilter)
    (onEvent : List OnEventId) (hasOnEose : Bool) : PoolState × Option Nat :=
  let merged := mergeSimilarAndRemoveEmptyFilters filters
  if merged = [] then (s, none)
  else
    let s1 := (addOrGetRelay s relay).1
    ({ s1 with
        nextId := s1.nextId + 1
        wireSubs := s1.wireSubs ++
          [{ id := s1.nextId, relay := relay, filters := merged,
             onEvent := onEvent, hasOnEose := hasOnEose, active := true }] },
      some s1.nextId)

/-- src lines 95-108 (#subscribeRelays): open a wire subscription per mapping
entry, collecting the ones actually opened; the returned ids are the
subscriptions the unsubscribe closure would tear down. -/
def subscribeRelays (s : PoolState) (filtersByRelay : FilterMap)
    (onEvent : List OnEventId) (hasOnEose : Bool) : PoolState × List Nat :=
  match filtersByRelay with
  | [] => (s, [])
  | (relay, filters) :: rest =>
    match subscribeRelay s relay filters onEvent hasOnEose with
    | (s1, some subId) =>
      let r := subscribeRelays s1 rest onEvent hasOnEose
      (r.1, subId :: r.2)
    | (s1, none) => subscribeRelays s1 rest onEvent hasOnEose

/-- The value a subscribe or flush returns: either the no-op closure or the
closure unsubscribing the listed wire subscriptions. -/
inductive CancelFn where
  | noop
  | unsubAll (subIds : List Nat)
deriving DecidableEq, Repr

/-- Invoking a returned closure: the no-op does nothing; the unsubscribe
closure calls unsub on each collected subscription. -/
def applyCancel (s : PoolState) : CancelFn → PoolState
  | .noop => s
  | .unsubAll subIds =>
    { s with wireSubs := s.wireSubs.map (fun w =>
        if w.id ∈ subIds then { w with active := false } else w) }

/-- clearTimeout(this.timer); this.timer = undefined.  Cancels the armed
timer named by the handle, if any. -/
def clearPoolTimer (s : PoolState) : PoolState :=
  { s with
      timers := s.timers.filter (fun t => decide (s.timer ≠ some t.1))
      timer := none }

/-- src lines 110-120: cancel the timer, reset the debounce state, route the
whole batch into one callback and one mapping, clear the batch and open the
wire subscriptions. -/
def sendSubscriptions (s : PoolState) (hasOnEose : Bool) :
    PoolState × CancelFn :=
  let s1 := { (clearPoolTimer s) with minMaxDelayms := none }
  let routed := batchFiltersByRelay s1.filtersToSubscribe
  let s2 := { s1 with filtersToSubscribe := [] }
  let r := subscribeRelays s2 routed.2 routed.1 hasOnEose
  (r.1, CancelFn.unsubAll r.2)

/-- Infinity-aware strict comparison: this.minMaxDelayms > maxDelayms with
none standing for Infinity. -/
def infGt (m : Option Nat) (d : Nat) : Bool :=
  match m with
  | none => true
  | some v => decide (d < v)

/-- src lines 122-135 (#resetTimer): lower the stored minimum, cancel the
armed timer, and rearm from now with the new minimum when it is finite. -/
def resetTimer (s : PoolState) (maxDelayms : Nat) : PoolState :=
  let s1 := if infGt s.minMaxDelayms maxDelayms
            then { s with minMaxDelayms := some maxDelayms } else s
  let s2 := clearPoolTimer s1
  match s2.minMaxDelayms with
  | some d =>
    { s2 with
        timer := some s2.nextId
        timers := s2.timers ++ [(s2.nextId, d)]
        nextId := s2.nextId + 1 }
  | none => s2

/-- JavaScript truthiness of the optional maxDelayms argument: undefined and
0 are falsy. -/
def truthy : Option Nat → Bool
  | none => false
  | some d => decide (d ≠ 0)

/-- src lines 148-156: group the request and append it to the pending batch. -/
def pushBatch (s : PoolState) (filters : List NostrFilter) (relays : List String)
    (onEvent : OnEventId) : PoolState :=
  let grouped := groupFiltersByRelayAndEmitCacheHits filters relays onEvent
  { s with filtersToSubscribe :=
      s.filtersToSubscribe ++ [(grouped.1, grouped.2)] }

/-- src lines 137-162: subscribe.  Throwing is modelled by Except.error; the
mutual-exclusion check comes first, then the request is grouped and appended
to the batch, then either the debounce timer is reset (truthy maxDelayms) or
the batch is flushed synchronously. -/
def subscribe (s : PoolState) (filters : List NostrFilter) (relays : List String)
    (onEvent : OnEventId) (maxDelayms : Option Nat) (hasOnEose : Bool) :
    Except String (PoolState × CancelFn) :=
  if truthy maxDelayms && hasOnEose then
    .error "maxDelayms and onEose cannot be used together"
  else
    let s1 := pushBatch s filters relays onEvent
    match maxDelayms with
    | some d =>
      if d ≠ 0 then .ok (resetTimer s1 d, CancelFn.noop)
      else .ok (sendSubscriptions s1 hasOnEose)
    | none => .ok (sendSubscriptions s1 hasOnEose)

/-- One iteration of the publish loop: get-or-create the connection for the
url and record the send in the publish log. -/
def publishToRelay (event : Nat) (st : PoolState) (r : String) : PoolState :=
  let st1 := (addOrGetRelay st r).1
  { st1 with publishLog := st1.publishLog ++ [(event, r)] }

/-- src lines 181-186: publish to each distinct relay url, get-or-creating
the connection; the send itself is recorded in the publish log. -/
def publish (s : PoolState) (event : Nat) (relays : List String) : PoolState :=
  (unique relays).foldl (publishToRelay event) s

/-- src lines 187-189: push the callback on the pool's central notice list. -/
def onnotice (s : PoolState) (cb : Nat) : PoolState :=
  { s with noticecbs := s.noticecbs ++ [cb] }

/-- src lines 190-194: wire the callback to each connection present now. -/
def onerror (s : PoolState) (cb : Nat) : PoolState :=
  { s with relayByUrl := s.relayByUrl.map (fun e =>
      (e.1, { e.2 with errorHandlers := e.2.errorHandlers ++ [cb] })) }

/-- src lines 195-199: wire the callback to each connection present now. -/
def ondisconnect (s : PoolState) (cb : Nat) : PoolState :=
  { s with relayByUrl := s.relayByUrl.map (fun e =>
      (e.1, { e.2 with disconnectHandlers := e.2.disconnectHandlers ++ [cb] })) }

/-- Which callbacks fire when the relay at url emits a notice: the notice
forwarder, when installed, reads the pool's current noticecbs. -/
def deliverNotice (s : PoolState) (url : String) : List Nat :=
  match lookupUrl s.relayByUrl url with
  | some inst => if inst.noticeWired then s.noticecbs else []
  | none => []

/-- Which callbacks fire when the relay at url emits an error. -/
def deliverError (s : PoolState) (url : String) : List Nat :=
  match lookupUrl s.relayByUrl url with
  | some inst => inst.errorHandlers
  | none => []

/-- Which callbacks fire when the relay at url emits a disconnect. -/
def deliverDisconnect (s : PoolState) (url : String) : List Nat :=
  match lookupUrl s.relayByUrl url with
  | some inst => inst.disconnectHandlers
  | none => []

/-- The public operations of the pool, plus the two events the environment
produces: a connect promise resolving and the armed timer firing. -/
inductive Op where
  | subscribeOp (filters : List NostrFilter) (relays : List String)
      (onEvent : OnEventId) (maxDelayms : Option Nat) (hasOnEose : Bool)
  | sendSubsOp (hasOnEose : Bool)
  | timerFireOp
  | addRelayOp (url : String)
  | connectOkOp (url : String)
  | publishOp (event : Nat) (relays : List String)
  | onnoticeOp (cb : Nat)
  | onerrorOp (cb : Nat)
  | ondisconnectOp (cb : Nat)
deriving DecidableEq, Repr

/-- One step of the pool: a thrown subscribe leaves the state unchanged; when
the armed timer fires the runtime removes it from the world and runs the
callback, which is this.sendSubscriptions() with no onEose. -/
def step (s : PoolState) : Op → PoolState
  | .subscribeOp f r oe md he =>
    match subscribe s f r oe md he with
    | .ok p => p.1
    | .error _ => s
  | .sendSubsOp he => (sendSubscriptions s he).1
  | .timerFireOp =>
    match s.timer with
    | some h =>
      (sendSubscriptions
        { s with timers := s.timers.filter (fun t => decide (t.1 ≠ h)) }
        false).1
    | none => s
  | .addRelayOp url => (addOrGetRelay s url).1
  | .connectOkOp url => connectOk s url
  | .publishOp ev rs => publish s ev rs
  | .onnoticeOp cb => onnotice s cb
  | .onerrorOp cb => onerror s cb
  | .ondisconnectOp cb => ondisconnect s cb

def run (s : PoolState) (ops : List Op) : PoolState := ops.foldl step s

/-! Debounce bookkeeping: the minimum-with-Infinity and the timer invariant. -/

/-- Minimum of the stored Infinity-capable delay and a new finite delay. -/
def minInf : Option Nat → Nat → Nat
  | none, d => d
  | some m, d => min m d

/-- At most one timer is armed, and any armed timer is the one the pool's
handle names. -/
def TimerInv (s : PoolState) : Prop :=
  s.timers.length ≤ 1 ∧ ∀ t ∈ s.timers, s.timer = some t.1

instance (s : PoolState) : Decidable (TimerInv s) := by
  unfold TimerInv; infer_instance


/-- All wire subscription ids are below the fresh-id counter. -/
def WfIds (s : PoolState) : Prop :=
  ∀ w ∈ s.wireSubs, w.id < s.nextId

instance (s : PoolState) : Decidable (WfIds s) := by
  unfold WfIds; infer_instance

/-- Any sequence of addOrGetRelay calls (as the constructor loop performs). -/
def requestRelays (s : PoolState) (urls : List String) : PoolState :=
  urls.foldl (fun st u => (addOrGetRelay st u).1) s

/-- A filter constraining kind 1, for the concrete debounce scenario. -/
def fA : NostrFilter := { kinds := some [1] }

/-- A filter constraining kind 2, for the concrete debounce scenario. -/
def fB : NostrFilter := { kinds := some [2] }

/-- The spec scenario: two debounced subscribe calls, delays 500 then 100,
both arriving before the timer fires. -/
def opsC2 : List Op :=
  [Op.subscribeOp [fA] ["wss://a"] 0 (some 500) false,
   Op.subscribeOp [fB] ["wss://a"] 1 (some 100) false]

/-- A pool whose pending batch maps one relay to a single empty filter. -/
def c3State : PoolState :=
  { initPool with filtersToSubscribe := [(0, [("wss://a", [({} : NostrFilter)])])] }

/-- What one wire subscription receives from its relay, in order. -/
inductive RelayMsg where
  | event (e : Nat)
  | eose
deriving DecidableEq, Repr

/-- An observable effect of the wire subscription handlers: a call of the
merged onEvent callback (with the after-end-marker flag) or a call of the
onEose callback (with the accumulated events). -/
inductive SubOutput where
  | onEventOut (e : Nat) (afterEose : Bool) (relay : String)
  | onEoseOut (events : Option (List Nat)) (relay : String)
deriving DecidableEq, Repr

def isEoseOut : SubOutput → Bool
  | .onEoseOut _ _ => true
  | _ => false

/-- src lines 80-91: the event handler appends to the accumulator while it is
still a list and reports the after-end-marker flag (eventsBySub undefined);
the eose handler, installed only when onEose was supplied, delivers the
accumulator and clears it to undefined. -/
def handleMsg (hasOnEose : Bool) (relay : String) (acc : Option (List Nat)) :
    RelayMsg → Option (List Nat) × List SubOutput
  | .event e =>
    let acc1 := acc.map (fun l => l ++ [e])
    (acc1, [SubOutput.onEventOut e acc1.isNone relay])
  | .eose =>
    if hasOnEose then (none, [SubOutput.onEoseOut acc relay]) else (acc, [])

def runSubFrom (hasOnEose : Bool) (relay : String)
    (st : Option (List Nat) × List SubOutput) (msgs : List RelayMsg) :
    Option (List Nat) × List SubOutput :=
  msgs.foldl (fun st1 m =>
    let r := handleMsg hasOnEose relay st1.1 m
    (r.1, st1.2 ++ r.2)) st

/-- Process a wire subscription's whole message stream from the initial
accumulator (an empty list) and collect the observable callback calls. -/
def runSub (hasOnEose : Bool) (relay : String) (msgs : List RelayMsg) :
    Option (List Nat) × List SubOutput :=
  runSubFrom hasOnEose relay (some [], []) msgs

/-- The pool state right after a flush has reset the debounce state and
cleared the batch, before the wire subscriptions are opened. -/
def preFlushState (s : PoolState) : PoolState :=
  { (clearPoolTimer s) with
      minMaxDelayms := none
      filtersToSubscribe := [] }

/-- A pool whose pending batch maps one relay to one nonempty filter. -/
def c3WitState : PoolState :=
  { initPool with filtersToSubscribe := [(0, [("wss://a", [fA])])] }

/-! Basic lemmas about lookupUrl and addOrGetRelay. -/

theorem lookupUrl_append (l1 l2 : List (String × RelayInstance)) (url : String) :
    lookupUrl (l1 ++ l2) url =
      match lookupUrl l1 url with
      | some v => some v
      | none => lookupUrl l2 url := by
  induction l1 with
  | nil => simp [lookupUrl]
  | cons hd tl ih =>
    obtain ⟨k, v⟩ := hd
    by_cases hk : k = url
    · simp [lookupUrl, hk]
    · simp [lookupUrl, hk, ih]

theorem lookupUrl_eq_none_iff (l : List (String × RelayInstance)) (url : String) :
    lookupUrl l url = none ↔ url ∉ l.map Prod.fst := by
  induction l with
  | nil => simp [lookupUrl]
  | cons hd tl ih =>
    obtain ⟨k, v⟩ := hd
    by_cases hk : k = url
    · subst hk; simp [lookupUrl]
    · simp [lookupUrl, hk, ih]
      intro h
      exact fun h2 => hk h2.symm

theorem addOrGetRelay_lookup_self (s : PoolState) (u : String) :
    lookupUrl ((addOrGetRelay s u).1).relayByUrl u = some (addOrGetRelay s u).2 := by
  cases h : lookupUrl s.relayByUrl u with
  | some inst => simp [addOrGetRelay, h]
  | none =>
    simp only [addOrGetRelay, h]
    rw [lookupUrl_append]
    simp [h, lookupUrl]

theorem addOrGetRelay_idempotent (s : PoolState) (url : String) :
    addOrGetRelay (addOrGetRelay s url).1 url = addOrGetRelay s url := by
  have h := addOrGetRelay_lookup_self s url
  cases h2 : lookupUrl s.relayByUrl url with
  | some inst =>
    simp [addOrGetRelay, h2]
  | none =>
    conv_lhs => rw [addOrGetRelay]
    rw [h]

theorem addOrGetRelay_shape (s : PoolState) (u : String) :
    ∃ rel n, (addOrGetRelay s u).1 = { s with relayByUrl := rel, nextId := n } := by
  cases h : lookupUrl s.relayByUrl u with
  | some inst => exact ⟨s.relayByUrl, s.nextId, by simp [addOrGetRelay, h]⟩
  | none =>
    refine ⟨s.relayByUrl ++
      [(u, { id := s.nextId, url := u, noticeWired := false,
             errorHandlers := [], disconnectHandlers := [] })],
      s.nextId + 1, ?_⟩
    simp [addOrGetRelay, h]

theorem addOrGetRelay_nextId_le (s : PoolState) (u : String) :
    s.nextId ≤ ((addOrGetRelay s u).1).nextId := by
  cases h : lookupUrl s.relayByUrl u with
  | some inst => simp [addOrGetRelay, h]
  | none => simp [addOrGetRelay, h]

theorem addOrGetRelay_keys (s : PoolState) (u : String) :
    ((addOrGetRelay s u).1).relayByUrl.map Prod.fst =
      if u ∈ s.relayByUrl.map Prod.fst then s.relayByUrl.map Prod.fst
      else s.relayByUrl.map Prod.fst ++ [u] := by
  cases h : lookupUrl s.relayByUrl u with
  | some inst =>
    have hm : u ∈ s.relayByUrl.map Prod.fst := by
      by_contra hn
      rw [← lookupUrl_eq_none_iff] at hn
      rw [h] at hn
      exact Option.noConfusion hn
    simp [addOrGetRelay, h, hm]
  | none =>
    have hm : u ∉ s.relayByUrl.map Prod.fst := (lookupUrl_eq_none_iff _ _).mp h
    simp [addOrGetRelay, h, hm]

theorem initPool_TimerInv : TimerInv initPool := by
  constructor
  · simp [initPool]
  · intro t ht; simp [initPool] at ht

theorem clearPoolTimer_timers_nil (s : PoolState) (h : TimerInv s) :
    (clearPoolTimer s).timers = [] := by
  simp only [clearPoolTimer]
  rw [List.filter_eq_nil_iff]
  intro t ht
  have h2 := h.2 t ht
  simp [h2]

/-! Component lemmas: which fields each operation leaves untouched. -/

theorem subscribeRelay_components (s : PoolState) (r : String)
    (fs : List NostrFilter) (oe : List OnEventId) (he : Bool) :
    ∃ ws, ((subscribeRelay s r fs oe he).1).wireSubs = s.wireSubs ++ ws ∧
      ((subscribeRelay s r fs oe he).1).noticecbs = s.noticecbs ∧
      ((subscribeRelay s r fs oe he).1).minMaxDelayms = s.minMaxDelayms ∧
      ((subscribeRelay s r fs oe he).1).filtersToSubscribe = s.filtersToSubscribe ∧
      ((subscribeRelay s r fs oe he).1).timer = s.timer ∧
      ((subscribeRelay s r fs oe he).1).timers = s.timers ∧
      ((subscribeRelay s r fs oe he).1).publishLog = s.publishLog ∧
      s.nextId ≤ ((subscribeRelay s r fs oe he).1).nextId := by
  by_cases hm : mergeSimilarAndRemoveEmptyFilters fs = []
  · exact ⟨[], by simp [subscribeRelay, hm]⟩
  · obtain ⟨rel, n, hsh⟩ := addOrGetRelay_shape s r
    have hle := addOrGetRelay_nextId_le s r
    rw [hsh] at hle
    simp at hle
    refine ⟨[{ id := n
               relay := r
               filters := mergeSimilarAndRemoveEmptyFilters fs
               onEvent := oe
               hasOnEose := he
               active := true }], ?_⟩
    simp only [subscribeRelay, if_neg hm, hsh]
    simp
    omega

theorem subscribeRelays_components (m : FilterMap) :
    ∀ (s : PoolState) (oe : List OnEventId) (he : Bool),
    ∃ ws, ((subscribeRelays s m oe he).1).wireSubs = s.wireSubs ++ ws ∧
      ((subscribeRelays s m oe he).1).noticecbs = s.noticecbs ∧
      ((subscribeRelays s m oe he).1).minMaxDelayms = s.minMaxDelayms ∧
      ((subscribeRelays s m oe he).1).filtersToSubscribe = s.filtersToSubscribe ∧
      ((subscribeRelays s m oe he).1).timer = s.timer ∧
      ((subscribeRelays s m oe he).1).timers = s.timers ∧
      ((subscribeRelays s m oe he).1).publishLog = s.publishLog ∧
      s.nextId ≤ ((subscribeRelays s m oe he).1).nextId := by
  induction m with
  | nil =>
    intro s oe he
    exact ⟨[], by simp [subscribeRelays]⟩
  | cons hd tl ih =>
    intro s oe he
    obtain ⟨r, fs⟩ := hd
    obtain ⟨ws1, hw1, hn1, hm1, hf1, ht1, hts1, hp1, hle1⟩ :=
      subscribeRelay_components s r fs oe he
    cases hsr : subscribeRelay s r fs oe he with
    | mk s1 osub =>
      rw [hsr] at hw1 hn1 hm1 hf1 ht1 hts1 hp1 hle1
      obtain ⟨ws2, hw2, hn2, hm2, hf2, ht2, hts2, hp2, hle2⟩ := ih s1 oe he
      cases osub with
      | some subId =>
        refine ⟨ws1 ++ ws2, ?_⟩
        simp only [subscribeRelays, hsr]
        simp_all
        omega
      | none =>
        refine ⟨ws1 ++ ws2, ?_⟩
        simp only [subscribeRelays, hsr]
        simp_all
        omega

theorem sendSubscriptions_components (s : PoolState) (he : Bool) :
    ∃ ws, ((sendSubscriptions s he).1).wireSubs = s.wireSubs ++ ws ∧
      ((sendSubscriptions s he).1).noticecbs = s.noticecbs ∧
      ((sendSubscriptions s he).1).minMaxDelayms = none ∧
      ((sendSubscriptions s he).1).filtersToSubscribe = [] ∧
      ((sendSubscriptions s he).1).timer = none ∧
      ((sendSubscriptions s he).1).timers =
        s.timers.filter (fun t => decide (s.timer ≠ some t.1)) ∧
      ((sendSubscriptions s he).1).publishLog = s.publishLog ∧
      s.nextId ≤ ((sendSubscriptions s he).1).nextId := by
  obtain ⟨ws, hw, hn, hm, hf, ht, hts, hp, hle⟩ :=
    subscribeRelays_components
      (batchFiltersByRelay s.filtersToSubscribe).2
      { (clearPoolTimer s) with
          minMaxDelayms := none
          filtersToSubscribe := [] }
      (batchFiltersByRelay s.filtersToSubscribe).1 he
  refine ⟨ws, ?_⟩
  simp only [sendSubscriptions, clearPoolTimer] at *
  simp_all

theorem resetTimer_spec (s : PoolState) (d : Nat) (hinv : TimerInv s) :
    ∃ h, (resetTimer s d).minMaxDelayms = some (minInf s.minMaxDelayms d) ∧
      (resetTimer s d).timer = some h ∧
      (resetTimer s d).timers = [(h, minInf s.minMaxDelayms d)] ∧
      (resetTimer s d).relayByUrl = s.relayByUrl ∧
      (resetTimer s d).noticecbs = s.noticecbs ∧
      (resetTimer s d).filtersToSubscribe = s.filtersToSubscribe ∧
      (resetTimer s d).wireSubs = s.wireSubs ∧
      (resetTimer s d).publishLog = s.publishLog := by
  have hforall : ∀ a b : Nat, (a, b) ∈ s.timers → s.timer = some a := by
    intro a b hab
    exact hinv.2 (a, b) hab
  by_cases hc : infGt s.minMaxDelayms d = true
  · have hinv1 : TimerInv ({ s with minMaxDelayms := some d }) := ⟨hinv.1, hinv.2⟩
    have hnil := clearPoolTimer_timers_nil _ hinv1
    have hminval : minInf s.minMaxDelayms d = d := by
      cases hm : s.minMaxDelayms with
      | none => simp [minInf]
      | some m =>
        rw [hm] at hc
        simp only [infGt, decide_eq_true_eq] at hc
        simp [minInf, Nat.min_eq_right (Nat.le_of_lt hc)]
    simp only [clearPoolTimer] at hnil
    refine ⟨s.nextId, ?_⟩
    simp [resetTimer, clearPoolTimer, hc, hnil, hminval]
    exact hforall
  · have hnil := clearPoolTimer_timers_nil s hinv
    obtain ⟨m, hm⟩ : ∃ m, s.minMaxDelayms = some m := by
      cases hm : s.minMaxDelayms with
      | none => rw [hm] at hc; simp [infGt] at hc
      | some m => exact ⟨m, rfl⟩
    have hc2 : infGt (some m) d = false := by
      rw [hm] at hc
      simpa using hc
    have hminval : minInf s.minMaxDelayms d = m := by
      have hge : m ≤ d := by
        simp only [infGt, decide_eq_false_iff_not] at hc2
        omega
      simp [minInf, hm, Nat.min_eq_left hge]
    rw [hm] at hminval
    have hfil : List.filter (fun t => !decide (s.timer = some t.1)) s.timers = [] := by
      rw [List.filter_eq_nil_iff]
      intro a ha
      simp [hinv.2 a ha]
    refine ⟨s.nextId, ?_⟩
    simp [resetTimer, clearPoolTimer, hm, hc2, hfil, hminval]

theorem publishToRelay_components (ev : Nat) (st : PoolState) (r : String) :
    (publishToRelay ev st r).noticecbs = st.noticecbs ∧
    (publishToRelay ev st r).minMaxDelayms = st.minMaxDelayms ∧
    (publishToRelay ev st r).filtersToSubscribe = st.filtersToSubscribe ∧
    (publishToRelay ev st r).timer = st.timer ∧
    (publishToRelay ev st r).timers = st.timers ∧
    (publishToRelay ev st r).wireSubs = st.wireSubs ∧
    (publishToRelay ev st r).publishLog = st.publishLog ++ [(ev, r)] := by
  obtain ⟨rel, n, hsh⟩ := addOrGetRelay_shape st r
  simp [publishToRelay, hsh]

theorem publish_foldl_components (l : List String) :
    ∀ (s : PoolState) (ev : Nat),
      (l.foldl (publishToRelay ev) s).noticecbs = s.noticecbs ∧
      (l.foldl (publishToRelay ev) s).minMaxDelayms = s.minMaxDelayms ∧
      (l.foldl (publishToRelay ev) s).filtersToSubscribe = s.filtersToSubscribe ∧
      (l.foldl (publishToRelay ev) s).timer = s.timer ∧
      (l.foldl (publishToRelay ev) s).timers = s.timers ∧
      (l.foldl (publishToRelay ev) s).wireSubs = s.wireSubs ∧
      (l.foldl (publishToRelay ev) s).publishLog =
        s.publishLog ++ l.map (fun r => (ev, r)) := by
  induction l with
  | nil => intro s ev; simp
  | cons r rest ih =>
    intro s ev
    obtain ⟨h1, h2, h3, h4, h5, h6, h7⟩ := publishToRelay_components ev s r
    obtain ⟨g1, g2, g3, g4, g5, g6, g7⟩ := ih (publishToRelay ev s r) ev
    simp only [List.foldl_cons]
    refine ⟨?_, ?_, ?_, ?_, ?_, ?_, ?_⟩ <;> simp_all

theorem publish_components (s : PoolState) (ev : Nat) (relays : List String) :
    (publish s ev relays).noticecbs = s.noticecbs ∧
    (publish s ev relays).minMaxDelayms = s.minMaxDelayms ∧
    (publish s ev relays).filtersToSubscribe = s.filtersToSubscribe ∧
    (publish s ev relays).timer = s.timer ∧
    (publish s ev relays).timers = s.timers ∧
    (publish s ev relays).wireSubs = s.wireSubs ∧
    (publish s ev relays).publishLog =
      s.publishLog ++ (unique relays).map (fun r => (ev, r)) :=
  publish_foldl_components (unique relays) s ev

theorem subscribe_ok_cases (s : PoolState) (f : List NostrFilter)
    (r : List String) (oe : OnEventId) (md : Option Nat) (he : Bool)
    (p : PoolState × CancelFn)
    (hp : subscribe s f r oe md he = .ok p) :
    (∃ d, md = some d ∧ d ≠ 0 ∧
        p = (resetTimer (pushBatch s f r oe) d, CancelFn.noop)) ∨
    p = sendSubscriptions (pushBatch s f r oe) he := by
  by_cases hc : (truthy md && he) = true
  · simp [subscribe, hc] at hp
  · cases md with
    | none =>
      simp [subscribe, hc] at hp
      exact Or.inr hp.symm
    | some d =>
      by_cases hd : d = 0
      · subst hd
        simp [subscribe, hc] at hp
        exact Or.inr hp.symm
      · simp [subscribe, hc, hd] at hp
        exact Or.inl ⟨d, rfl, hd, hp.symm⟩

theorem TimerInv_sendSubscriptions (s : PoolState) (he : Bool)
    (hinv : TimerInv s) : TimerInv (sendSubscriptions s he).1 := by
  obtain ⟨ws, hw, hn, hm, hf, ht, hts, hp, hle⟩ := sendSubscriptions_components s he
  have hnil := clearPoolTimer_timers_nil s hinv
  simp only [clearPoolTimer] at hnil
  rw [hnil] at hts
  constructor
  · rw [hts]; simp
  · intro t htm
    rw [hts] at htm
    simp at htm

theorem TimerInv_resetTimer (s : PoolState) (d : Nat) (hinv : TimerInv s) :
    TimerInv (resetTimer s d) := by
  obtain ⟨h, h1, h2, h3, _⟩ := resetTimer_spec s d hinv
  constructor
  · rw [h3]; simp
  · intro t htm
    rw [h3] at htm
    simp at htm
    rw [h2, htm]

theorem TimerInv_step (s : PoolState) (op : Op) (hinv : TimerInv s) :
    TimerInv (step s op) := by
  cases op with
  | subscribeOp f r oe md he =>
    simp only [step]
    cases hs : subscribe s f r oe md he with
    | error e => exact hinv
    | ok p =>
      have hinvP : TimerInv (pushBatch s f r oe) := ⟨hinv.1, hinv.2⟩
      rcases subscribe_ok_cases s f r oe md he p hs with ⟨d, hmd, hd, hpeq⟩ | hpeq
      · rw [hpeq]
        exact TimerInv_resetTimer _ d hinvP
      · rw [hpeq]
        exact TimerInv_sendSubscriptions _ he hinvP
  | sendSubsOp he => exact TimerInv_sendSubscriptions s he hinv
  | timerFireOp =>
    simp only [step]
    cases ht : s.timer with
    | none => exact hinv
    | some h =>
      have hinvF : TimerInv
          { s with
              timer := some h
              timers := s.timers.filter (fun t => decide (t.1 ≠ h)) } := by
        constructor
        · calc (s.timers.filter (fun t => decide (t.1 ≠ h))).length
              ≤ s.timers.length := List.length_filter_le _ _
            _ ≤ 1 := hinv.1
        · intro t htm
          have h2 := List.mem_of_mem_filter htm
          have h3 := hinv.2 t h2
          rw [ht] at h3
          exact h3
      exact TimerInv_sendSubscriptions _ false hinvF
  | addRelayOp url =>
    simp only [step]
    obtain ⟨rel, n, hsh⟩ := addOrGetRelay_shape s url
    rw [hsh]
    exact ⟨hinv.1, hinv.2⟩
  | connectOkOp url => exact ⟨hinv.1, hinv.2⟩
  | publishOp ev rs =>
    obtain ⟨h1, h2, h3, h4, h5, h6, h7⟩ := publish_components s ev rs
    constructor
    · rw [show (step s (Op.publishOp ev rs)).timers = s.timers from h5]
      exact hinv.1
    · intro t htm
      rw [show (step s (Op.publishOp ev rs)).timers = s.timers from h5] at htm
      rw [show (step s (Op.publishOp ev rs)).timer = s.timer from h4]
      exact hinv.2 t htm
  | onnoticeOp cb => exact ⟨hinv.1, hinv.2⟩
  | onerrorOp cb => exact ⟨hinv.1, hinv.2⟩
  | ondisconnectOp cb => exact ⟨hinv.1, hinv.2⟩

theorem TimerInv_run (ops : List Op) :
    ∀ s : PoolState, TimerInv s → TimerInv (run s ops) := by
  induction ops with
  | nil => intro s h; exact h
  | cons op rest ih =>
    intro s h
    exact ih (step s op) (TimerInv_step s op h)

theorem requestRelays_keys (urls : List String) :
    ∀ s : PoolState,
      (requestRelays s urls).relayByUrl.map Prod.fst =
        urls.foldl (fun acc u => if u ∈ acc then acc else acc ++ [u])
          (s.relayByUrl.map Prod.fst) := by
  induction urls with
  | nil => intro s; rfl
  | cons u rest ih =>
    intro s
    simp only [requestRelays, List.foldl_cons]
    have h := ih ((addOrGetRelay s u).1)
    simp only [requestRelays] at h
    rw [h, addOrGetRelay_keys]

/-- Claim C1: when subscribe receives a truthy maxDelayms together with an
onEose callback it fails with the configuration error, and the pool state is
left untouched — nothing is appended to the pending batch, no wire
subscription is opened, no connection is created. -/
theorem subscribe_mutual_exclusion (s : PoolState) (filters : List NostrFilter)
    (relays : List String) (oe : OnEventId) (maxDelayms : Option Nat)
    (h : truthy maxDelayms = true) :
    subscribe s filters relays oe maxDelayms true =
      .error "maxDelayms and onEose cannot be used together" ∧
    step s (Op.subscribeOp filters relays oe maxDelayms true) = s := by
  constructor
  · simp [subscribe, h]
  · simp [step, subscribe, h]

theorem subscribe_mutual_exclusion_witness :
    truthy (some 5) = true ∧
    (subscribe initPool [fA] ["wss://a"] 0 (some 5) true =
      .error "maxDelayms and onEose cannot be used together" ∧
     step initPool (Op.subscribeOp [fA] ["wss://a"] 0 (some 5) true) = initPool) :=
  ⟨by decide,
   subscribe_mutual_exclusion initPool [fA] ["wss://a"] 0 (some 5) (by decide)⟩

/-- Claim C9: maxDelayms = 0 is falsy, so subscribe treats it exactly as no
delay — the call behaves identically to one with no maxDelayms, the batch is
flushed synchronously, and no configuration error is raised even when onEose
is supplied together with maxDelayms = 0. -/
theorem subscribe_zero_delay (s : PoolState) (filters : List NostrFilter)
    (relays : List String) (oe : OnEventId) (he : Bool) :
    subscribe s filters relays oe (some 0) he =
      subscribe s filters relays oe none he ∧
    ∃ p, subscribe s filters relays oe (some 0) true = .ok p ∧
      p.1.filtersToSubscribe = [] := by
  constructor
  · simp [subscribe, truthy]
  · refine ⟨sendSubscriptions (pushBatch s filters relays oe) true, ?_, ?_⟩
    · simp [subscribe, truthy]
    · obtain ⟨ws, hw, hn, hm, hf, ht, hts, hp, hle⟩ :=
        sendSubscriptions_components (pushBatch s filters relays oe) true
      exact hf

/-- Claim C7: when a relay's filter list merges-and-removes-empties to the
empty list, the subscribe-relay step returns before get-or-create: no wire
subscription is opened and the pool state — in particular the connection
registry — is completely unchanged. -/
theorem subscribeRelay_empty_merge (s : PoolState) (relay : String)
    (filters : List NostrFilter) (oe : List OnEventId) (he : Bool)
    (h : mergeSimilarAndRemoveEmptyFilters filters = []) :
    subscribeRelay s relay filters oe he = (s, none) := by
  simp [subscribeRelay, h]

theorem subscribeRelay_empty_merge_witness :
    mergeSimilarAndRemoveEmptyFilters [({} : NostrFilter)] = [] ∧
    subscribeRelay initPool "wss://a" [({} : NostrFilter)] [0] false =
      (initPool, none) :=
  ⟨by decide,
   subscribeRelay_empty_merge initPool "wss://a" [({} : NostrFilter)] [0] false
     (by decide)⟩

/-- Claim C5: addOrGetRelay is idempotent — a repeated call for the same url
returns the same connection instance and the same state as the first call —
and after any sequence of addOrGetRelay calls from a fresh pool the registry
holds exactly the distinct urls ever requested, in first-request order. -/
theorem addOrGetRelay_idempotent_spec :
    (∀ (s : PoolState) (url : String),
        addOrGetRelay (addOrGetRelay s url).1 url = addOrGetRelay s url) ∧
    (∀ urls : List String,
        (requestRelays initPool urls).relayByUrl.map Prod.fst = unique urls ∧
        (requestRelays initPool urls).relayByUrl.length =
          (unique urls).length) := by
  refine ⟨addOrGetRelay_idempotent, fun urls => ?_⟩
  have h := requestRelays_keys urls initPool
  have hkeys : (requestRelays initPool urls).relayByUrl.map Prod.fst =
      unique urls := by
    rw [h]
    rfl
  refine ⟨hkeys, ?_⟩
  calc (requestRelays initPool urls).relayByUrl.length
      = ((requestRelays initPool urls).relayByUrl.map Prod.fst).length :=
        (List.length_map _ _).symm
    _ = (unique urls).length := by rw [hkeys]

/-- Claim C2: after any operation sequence at most one debounce timer is
armed; a debounced subscribe lowers the stored minimum delay to the minimum
of the previous minimum and the new maxDelayms and rearms the single timer
from now with that minimum; in the 500-then-100 scenario exactly one timer is
armed, at delay 100, and its firing performs the one flush carrying both
requests' filters. -/
theorem debounce_coalescing :
    (∀ ops : List Op, (run initPool ops).timers.length ≤ 1) ∧
    (∀ (s : PoolState) (filters : List NostrFilter) (relays : List String)
        (oe : OnEventId) (d : Nat), TimerInv s → d ≠ 0 →
      ∃ s1 h,
        subscribe s filters relays oe (some d) false =
          .ok (s1, CancelFn.noop) ∧
        s1.minMaxDelayms = some (minInf s.minMaxDelayms d) ∧
        s1.timer = some h ∧
        s1.timers = [(h, minInf s.minMaxDelayms d)]) ∧
    ((run initPool opsC2).timers = [(1, 100)] ∧
      (run initPool opsC2).minMaxDelayms = some 100 ∧
      (step (run initPool opsC2) Op.timerFireOp).timers = [] ∧
      (step (run initPool opsC2) Op.timerFireOp).filtersToSubscribe = [] ∧
      (step (run initPool opsC2) Op.timerFireOp).wireSubs.map
          (fun w => (w.relay, w.filters, w.onEvent)) =
        [("wss://a", [fA, fB], [0, 1])]) := by
  refine ⟨?_, ?_, ?_⟩
  · intro ops
    exact (TimerInv_run ops initPool initPool_TimerInv).1
  · intro s filters relays oe d hinv hd
    have hinvP : TimerInv (pushBatch s filters relays oe) := ⟨hinv.1, hinv.2⟩
    obtain ⟨h, h1, h2, h3, _⟩ :=
      resetTimer_spec (pushBatch s filters relays oe) d hinvP
    refine ⟨resetTimer (pushBatch s filters relays oe) d, h, ?_, h1, h2, h3⟩
    simp [subscribe, truthy, hd]
  · refine ⟨by decide, by decide, by decide, by decide, by decide⟩

theorem debounce_coalescing_witness :
    (TimerInv initPool ∧ (7 : Nat) ≠ 0) ∧
    (∃ s1 h,
      subscribe initPool [fA] ["wss://a"] 0 (some 7) false =
        .ok (s1, CancelFn.noop) ∧
      s1.minMaxDelayms = some (minInf initPool.minMaxDelayms 7) ∧
      s1.timer = some h ∧
      s1.timers = [(h, minInf initPool.minMaxDelayms 7)]) :=
  ⟨⟨by decide, by decide⟩,
   debounce_coalescing.2.1 initPool [fA] ["wss://a"] 0 7 (by decide) (by decide)⟩

/-! Wire subscription fan-in: processing one subscription's message stream. -/

theorem runSubFrom_cons (he : Bool) (relay : String)
    (st : Option (List Nat) × List SubOutput) (m : RelayMsg)
    (ms : List RelayMsg) :
    runSubFrom he relay st (m :: ms) =
      runSubFrom he relay
        ((handleMsg he relay st.1 m).1, st.2 ++ (handleMsg he relay st.1 m).2)
        ms := rfl

theorem runSubFrom_append (he : Bool) (relay : String)
    (st : Option (List Nat) × List SubOutput) (a b : List RelayMsg) :
    runSubFrom he relay st (a ++ b) =
      runSubFrom he relay (runSubFrom he relay st a) b := by
  simp [runSubFrom, List.foldl_append]

theorem runSubFrom_events_some (he : Bool) (relay : String) (es : List Nat) :
    ∀ (l : List Nat) (outs : List SubOutput),
      runSubFrom he relay (some l, outs) (es.map RelayMsg.event) =
        (some (l ++ es),
         outs ++ es.map (fun e => SubOutput.onEventOut e false relay)) := by
  induction es with
  | nil => intro l outs; simp [runSubFrom]
  | cons e rest ih =>
    intro l outs
    rw [List.map_cons, runSubFrom_cons]
    simp only [handleMsg]
    rw [show ((some l).map (fun t => t ++ [e])) = some (l ++ [e]) from rfl]
    rw [show (some (l ++ [e])).isNone = false from rfl]
    rw [ih]
    simp

theorem runSubFrom_events_none (he : Bool) (relay : String) (es : List Nat) :
    ∀ outs : List SubOutput,
      runSubFrom he relay (none, outs) (es.map RelayMsg.event) =
        (none, outs ++ es.map (fun e => SubOutput.onEventOut e true relay)) := by
  induction es with
  | nil => intro outs; simp [runSubFrom]
  | cons e rest ih =>
    intro outs
    rw [List.map_cons, runSubFrom_cons]
    simp only [handleMsg]
    rw [show ((none : Option (List Nat)).map (fun t => t ++ [e])) = none from rfl]
    rw [show (none : Option (List Nat)).isNone = true from rfl]
    rw [ih]
    simp

theorem countP_isEoseOut_events (l : List Nat) (b : Bool) (relay : String) :
    ((l.map (fun e => SubOutput.onEventOut e b relay)).countP isEoseOut) = 0 := by
  induction l with
  | nil => rfl
  | cons e rest ih => simp [List.countP_cons, isEoseOut, ih]

/-- Claim C4: on a wire subscription with an onEose callback whose stream
carries one end-of-stored-events marker, onEose is called exactly once, with
exactly the events received before the marker; every event before the marker
reaches the merged onEvent with the after-end-marker flag false and every
event after it with the flag true, and the accumulator ends cleared to
undefined (none). -/
theorem eose_accounting (relay : String) (pre post : List Nat) :
    runSub true relay
        (pre.map RelayMsg.event ++ RelayMsg.eose :: post.map RelayMsg.event) =
      (none,
       pre.map (fun e => SubOutput.onEventOut e false relay) ++
         SubOutput.onEoseOut (some pre) relay ::
           post.map (fun e => SubOutput.onEventOut e true relay)) ∧
    (runSub true relay
        (pre.map RelayMsg.event ++
          RelayMsg.eose :: post.map RelayMsg.event)).2.countP isEoseOut = 1 := by
  have h1 : runSub true relay
      (pre.map RelayMsg.event ++ RelayMsg.eose :: post.map RelayMsg.event) =
      (none,
       pre.map (fun e => SubOutput.onEventOut e false relay) ++
         SubOutput.onEoseOut (some pre) relay ::
           post.map (fun e => SubOutput.onEventOut e true relay)) := by
    unfold runSub
    rw [runSubFrom_append, runSubFrom_events_some, runSubFrom_cons]
    simp only [handleMsg, List.nil_append, if_true]
    rw [runSubFrom_events_none]
    simp
  refine ⟨h1, ?_⟩
  rw [h1, List.countP_append, List.countP_cons,
    countP_isEoseOut_events, countP_isEoseOut_events]
  simp [isEoseOut]

/-! The unique helper and publish. -/

theorem mem_unique_foldl (l : List String) :
    ∀ (acc : List String) (x : String),
      (x ∈ l.foldl (fun a u => if u ∈ a then a else a ++ [u]) acc) ↔
        (x ∈ acc ∨ x ∈ l) := by
  induction l with
  | nil => intro acc x; simp
  | cons u rest ih =>
    intro acc x
    simp only [List.foldl_cons]
    by_cases hu : u ∈ acc
    · rw [if_pos hu, ih]
      constructor
      · rintro (h | h)
        · exact Or.inl h
        · exact Or.inr (List.mem_cons_of_mem _ h)
      · rintro (h | h)
        · exact Or.inl h
        · rcases List.mem_cons.mp h with h1 | h1
          · subst h1; exact Or.inl hu
          · exact Or.inr h1
    · rw [if_neg hu, ih]
      simp only [List.mem_append, List.mem_singleton, List.mem_cons]
      tauto

theorem nodup_unique_foldl (l : List String) :
    ∀ acc : List String, acc.Nodup →
      (l.foldl (fun a u => if u ∈ a then a else a ++ [u]) acc).Nodup := by
  induction l with
  | nil => intro acc h; exact h
  | cons u rest ih =>
    intro acc h
    simp only [List.foldl_cons]
    by_cases hu : u ∈ acc
    · rw [if_pos hu]; exact ih acc h
    · rw [if_neg hu]
      refine ih _ ?_
      rw [List.nodup_append]
      refine ⟨h, List.nodup_singleton u, ?_⟩
      intro a ha hb
      simp only [List.mem_singleton] at hb
      subst hb
      exact hu ha

theorem unique_nodup (l : List String) : (unique l).Nodup :=
  nodup_unique_foldl l [] List.nodup_nil

theorem mem_unique (l : List String) (x : String) : x ∈ unique l ↔ x ∈ l := by
  unfold unique
  rw [mem_unique_foldl]
  simp

theorem count_pair_map (l : List String) (ev : Nat) (u : String) :
    (l.map (fun r => (ev, r))).count (ev, u) = l.count u := by
  induction l with
  | nil => rfl
  | cons a rest ih =>
    simp only [List.map_cons, List.count_cons, ih]
    by_cases hu : u = a
    · subst hu; simp
    · simp [hu, Prod.ext_iff]

theorem nodup_count_eq (l : List String) :
    l.Nodup → ∀ u : String, l.count u = if u ∈ l then 1 else 0 := by
  induction l with
  | nil => intro _ u; rfl
  | cons a rest ih =>
    intro h u
    have hna : a ∉ rest := (List.nodup_cons.mp h).1
    have hrest := ih (List.nodup_cons.mp h).2
    simp only [List.count_cons, hrest]
    by_cases hu : u = a
    · subst hu
      simp [hna]
    · simp [hu, List.mem_cons]
      exact fun he => hu he.symm

theorem lookupUrl_isSome_addOrGetRelay (s : PoolState) (u url : String)
    (h : (lookupUrl s.relayByUrl url).isSome) :
    (lookupUrl ((addOrGetRelay s u).1).relayByUrl url).isSome := by
  cases hl : lookupUrl s.relayByUrl u with
  | some inst => simpa [addOrGetRelay, hl] using h
  | none =>
    simp only [addOrGetRelay, hl]
    rw [lookupUrl_append]
    cases hx : lookupUrl s.relayByUrl url with
    | some v => simp
    | none => rw [hx] at h; simp at h

theorem lookupUrl_isSome_addOrGetRelay_self (s : PoolState) (u : String) :
    (lookupUrl ((addOrGetRelay s u).1).relayByUrl u).isSome := by
  rw [addOrGetRelay_lookup_self]
  rfl

theorem publish_foldl_mem (l : List String) :
    ∀ (s : PoolState) (ev : Nat) (url : String),
      ((lookupUrl s.relayByUrl url).isSome ∨ url ∈ l) →
      (lookupUrl ((l.foldl (publishToRelay ev) s)).relayByUrl url).isSome := by
  induction l with
  | nil =>
    intro s ev url h
    rcases h with h | h
    · exact h
    · simp at h
  | cons r rest ih =>
    intro s ev url h
    simp only [List.foldl_cons]
    apply ih
    rcases h with h | h
    · left
      rw [show (publishToRelay ev s r).relayByUrl =
          ((addOrGetRelay s r).1).relayByUrl from rfl]
      exact lookupUrl_isSome_addOrGetRelay s r url h
    · rcases List.mem_cons.mp h with h1 | h1
      · subst h1
        left
        rw [show (publishToRelay ev s url).relayByUrl =
            ((addOrGetRelay s url).1).relayByUrl from rfl]
        exact lookupUrl_isSome_addOrGetRelay_self s url
      · right
        exact h1

/-- Claim C10: publish sends the event exactly once per distinct relay url in
the list — the publish log grows by one send per element of unique relays,
which has no duplicates, holds exactly the urls of the list, and counts each
present url once — and every url in the list has a connection in the registry
afterwards (created when absent before). -/
theorem publish_once_per_distinct (s : PoolState) (ev : Nat)
    (relays : List String) :
    (publish s ev relays).publishLog =
      s.publishLog ++ (unique relays).map (fun r => (ev, r)) ∧
    (unique relays).Nodup ∧
    (∀ u, u ∈ unique relays ↔ u ∈ relays) ∧
    (∀ u, ((unique relays).map (fun r => (ev, r))).count (ev, u) =
      if u ∈ relays then 1 else 0) ∧
    (∀ u ∈ relays, (lookupUrl (publish s ev relays).relayByUrl u).isSome) := by
  obtain ⟨h1, h2, h3, h4, h5, h6, h7⟩ := publish_components s ev relays
  refine ⟨h7, unique_nodup relays, fun u => mem_unique relays u, ?_, ?_⟩
  · intro u
    rw [count_pair_map, nodup_count_eq (unique relays) (unique_nodup relays) u]
    by_cases hm : u ∈ relays
    · rw [if_pos hm, if_pos ((mem_unique relays u).mpr hm)]
    · rw [if_neg hm, if_neg (fun hc => hm ((mem_unique relays u).mp hc))]
  · intro u hu
    unfold publish
    exact publish_foldl_mem (unique relays) s ev u
      (Or.inr ((mem_unique relays u).mpr hu))

/-! Observer wiring: notices fan out through the pool's central list, while
error and disconnect callbacks are wired per connection at registration. -/

theorem lookupUrl_map_gen (g : String → RelayInstance → RelayInstance)
    (l : List (String × RelayInstance)) (url : String) :
    lookupUrl (l.map (fun e => (e.1, g e.1 e.2))) url =
      (lookupUrl l url).map (g url) := by
  induction l with
  | nil => rfl
  | cons hd tl ih =>
    obtain ⟨k, v⟩ := hd
    by_cases hk : k = url
    · subst hk
      simp [lookupUrl]
    · simp [lookupUrl, hk, ih]

theorem connectOk_relayByUrl (s : PoolState) (u : String) :
    (connectOk s u).relayByUrl = s.relayByUrl.map
      (fun e => (e.1, if e.1 = u then { e.2 with noticeWired := true } else e.2)) := by
  simp only [connectOk]
  congr 1
  funext e
  by_cases h : e.1 = u <;> simp [h]

theorem resetTimer_quiet (s : PoolState) (d : Nat) :
    (resetTimer s d).relayByUrl = s.relayByUrl ∧
    (resetTimer s d).noticecbs = s.noticecbs ∧
    (resetTimer s d).filtersToSubscribe = s.filtersToSubscribe ∧
    (resetTimer s d).wireSubs = s.wireSubs ∧
    (resetTimer s d).publishLog = s.publishLog := by
  by_cases hc : infGt s.minMaxDelayms d = true
  · simp [resetTimer, clearPoolTimer, hc]
  · simp only [resetTimer, clearPoolTimer, hc, if_false]
    cases hm : s.minMaxDelayms <;> simp [hm]

theorem selFree_addOrGetRelay (sel : RelayInstance → List Nat)
    (hfresh : ∀ n u2, sel (RelayInstance.mk n u2 false [] []) = [])
    (s : PoolState) (u url : String) (cb : Nat)
    (h : ∀ inst, lookupUrl s.relayByUrl url = some inst → cb ∉ sel inst) :
    ∀ inst, lookupUrl ((addOrGetRelay s u).1).relayByUrl url = some inst →
      cb ∉ sel inst := by
  intro inst hinst
  cases hl : lookupUrl s.relayByUrl u with
  | some i0 =>
    rw [show (addOrGetRelay s u).1 = s from by simp [addOrGetRelay, hl]] at hinst
    exact h inst hinst
  | none =>
    simp only [addOrGetRelay, hl] at hinst
    rw [lookupUrl_append] at hinst
    cases hx : lookupUrl s.relayByUrl url with
    | some v =>
      rw [hx] at hinst
      simp only [Option.some.injEq] at hinst
      rw [← hinst]
      exact h v hx
    | none =>
      rw [hx] at hinst
      simp only [lookupUrl] at hinst
      by_cases hk : u = url
      · rw [if_pos hk] at hinst
        have : inst = RelayInstance.mk s.nextId u false [] [] := by
          cases hinst
          rfl
        rw [this, hfresh]
        simp
      · rw [if_neg hk] at hinst
        cases hinst

theorem selFree_subscribeRelay (sel : RelayInstance → List Nat)
    (hfresh : ∀ n u2, sel (RelayInstance.mk n u2 false [] []) = [])
    (s : PoolState) (r : String) (fs : List NostrFilter) (oe : List OnEventId)
    (he : Bool) (url : String) (cb : Nat)
    (h : ∀ inst, lookupUrl s.relayByUrl url = some inst → cb ∉ sel inst) :
    ∀ inst, lookupUrl ((subscribeRelay s r fs oe he).1).relayByUrl url =
      some inst → cb ∉ sel inst := by
  by_cases hm : mergeSimilarAndRemoveEmptyFilters fs = []
  · simpa [subscribeRelay, hm] using h
  · intro inst hinst
    simp only [subscribeRelay, if_neg hm] at hinst
    exact selFree_addOrGetRelay sel hfresh s r url cb h inst hinst

theorem selFree_subscribeRelays (sel : RelayInstance → List Nat)
    (hfresh : ∀ n u2, sel (RelayInstance.mk n u2 false [] []) = [])
    (m : FilterMap) :
    ∀ (s : PoolState) (oe : List OnEventId) (he : Bool) (url : String) (cb : Nat),
    (∀ inst, lookupUrl s.relayByUrl url = some inst → cb ∉ sel inst) →
    ∀ inst, lookupUrl ((subscribeRelays s m oe he).1).relayByUrl url =
      some inst → cb ∉ sel inst := by
  induction m with
  | nil =>
    intro s oe he url cb h
    simpa [subscribeRelays] using h
  | cons hd tl ih =>
    intro s oe he url cb h
    obtain ⟨r, fs⟩ := hd
    have h1 := selFree_subscribeRelay sel hfresh s r fs oe he url cb h
    cases hsr : subscribeRelay s r fs oe he with
    | mk s1 osub =>
      rw [hsr] at h1
      cases osub with
      | some subId =>
        simp only [subscribeRelays, hsr]
        exact ih s1 oe he url cb h1
      | none =>
        simp only [subscribeRelays, hsr]
        exact ih s1 oe he url cb h1

theorem selFree_sendSubscriptions (sel : RelayInstance → List Nat)
    (hfresh : ∀ n u2, sel (RelayInstance.mk n u2 false [] []) = [])
    (s : PoolState) (he : Bool) (url : String) (cb : Nat)
    (h : ∀ inst, lookupUrl s.relayByUrl url = some inst → cb ∉ sel inst) :
    ∀ inst, lookupUrl ((sendSubscriptions s he).1).relayByUrl url = some inst →
      cb ∉ sel inst := by
  intro inst hinst
  exact selFree_subscribeRelays sel hfresh
    (batchFiltersByRelay s.filtersToSubscribe).2
    { (clearPoolTimer s) with
        minMaxDelayms := none
        filtersToSubscribe := [] }
    (batchFiltersByRelay s.filtersToSubscribe).1 he url cb h inst hinst

theorem selFree_publish (sel : RelayInstance → List Nat)
    (hfresh : ∀ n u2, sel (RelayInstance.mk n u2 false [] []) = [])
    (l : List String) :
    ∀ (s : PoolState) (ev : Nat) (url : String) (cb : Nat),
    (∀ inst, lookupUrl s.relayByUrl url = some inst → cb ∉ sel inst) →
    ∀ inst, lookupUrl ((l.foldl (publishToRelay ev) s)).relayByUrl url =
      some inst → cb ∉ sel inst := by
  induction l with
  | nil => intro s ev url cb h; exact h
  | cons r rest ih =>
    intro s ev url cb h
    simp only [List.foldl_cons]
    apply ih
    intro inst hinst
    rw [show (publishToRelay ev s r).relayByUrl =
        ((addOrGetRelay s r).1).relayByUrl from rfl] at hinst
    exact selFree_addOrGetRelay sel hfresh s r url cb h inst hinst

theorem selFree_of_map (sel : RelayInstance → List Nat) (s s2 : PoolState)
    (url : String) (cb : Nat) (F : RelayInstance → RelayInstance)
    (hmap : lookupUrl s2.relayByUrl url = (lookupUrl s.relayByUrl url).map F)
    (hF : ∀ v, cb ∉ sel v → cb ∉ sel (F v))
    (h : ∀ inst, lookupUrl s.relayByUrl url = some inst → cb ∉ sel inst) :
    ∀ inst, lookupUrl s2.relayByUrl url = some inst → cb ∉ sel inst := by
  intro inst hinst
  rw [hmap] at hinst
  cases hx : lookupUrl s.relayByUrl url with
  | none => rw [hx] at hinst; cases hinst
  | some v =>
    rw [hx] at hinst
    simp only [Option.map_some', Option.some.injEq] at hinst
    rw [← hinst]
    exact hF v (h v hx)

theorem lookupUrl_connectOk (s : PoolState) (u url : String) :
    lookupUrl (connectOk s u).relayByUrl url =
      (lookupUrl s.relayByUrl url).map
        (fun v => if url = u then { v with noticeWired := true } else v) := by
  rw [connectOk_relayByUrl]
  exact lookupUrl_map_gen
    (fun k v => if k = u then { v with noticeWired := true } else v)
    s.relayByUrl url

theorem lookupUrl_onerror (s : PoolState) (cb2 : Nat) (url : String) :
    lookupUrl (onerror s cb2).relayByUrl url =
      (lookupUrl s.relayByUrl url).map
        (fun v => { v with errorHandlers := v.errorHandlers ++ [cb2] }) :=
  lookupUrl_map_gen
    (fun _ v => { v with errorHandlers := v.errorHandlers ++ [cb2] })
    s.relayByUrl url

theorem lookupUrl_ondisconnect (s : PoolState) (cb2 : Nat) (url : String) :
    lookupUrl (ondisconnect s cb2).relayByUrl url =
      (lookupUrl s.relayByUrl url).map
        (fun v => { v with disconnectHandlers := v.disconnectHandlers ++ [cb2] }) :=
  lookupUrl_map_gen
    (fun _ v => { v with disconnectHandlers := v.disconnectHandlers ++ [cb2] })
    s.relayByUrl url

theorem errFree_step (s : PoolState) (op : Op) (url : String) (cb : Nat)
    (hop : op ≠ Op.onerrorOp cb)
    (h : ∀ inst, lookupUrl s.relayByUrl url = some inst →
      cb ∉ inst.errorHandlers) :
    ∀ inst, lookupUrl (step s op).relayByUrl url = some inst →
      cb ∉ inst.errorHandlers := by
  have hfresh : ∀ (n : Nat) (u2 : String),
      (RelayInstance.mk n u2 false [] []).errorHandlers = [] := fun _ _ => rfl
  cases op with
  | subscribeOp f r oe md he =>
    simp only [step]
    cases hs : subscribe s f r oe md he with
    | error e => exact h
    | ok p =>
      have hP : ∀ inst, lookupUrl (pushBatch s f r oe).relayByUrl url =
          some inst → cb ∉ inst.errorHandlers := h
      rcases subscribe_ok_cases s f r oe md he p hs with ⟨d, hmd, hd, hpeq⟩ | hpeq
      · rw [hpeq]
        intro inst hinst
        rw [(resetTimer_quiet (pushBatch s f r oe) d).1] at hinst
        exact hP inst hinst
      · rw [hpeq]
        exact selFree_sendSubscriptions RelayInstance.errorHandlers hfresh
          (pushBatch s f r oe) he url cb hP
  | sendSubsOp he =>
    exact selFree_sendSubscriptions RelayInstance.errorHandlers hfresh
      s he url cb h
  | timerFireOp =>
    simp only [step]
    cases ht : s.timer with
    | none => exact h
    | some hh =>
      exact selFree_sendSubscriptions RelayInstance.errorHandlers hfresh
        { s with
            timer := some hh
            timers := s.timers.filter (fun t => decide (t.1 ≠ hh)) }
        false url cb h
  | addRelayOp u =>
    exact selFree_addOrGetRelay RelayInstance.errorHandlers hfresh s u url cb h
  | connectOkOp u =>
    refine selFree_of_map RelayInstance.errorHandlers s _ url cb
      (fun v => if url = u then { v with noticeWired := true } else v)
      (lookupUrl_connectOk s u url) ?_ h
    intro v hv
    by_cases hq : url = u <;> simp [hq] <;> exact hv
  | publishOp ev rs =>
    exact selFree_publish RelayInstance.errorHandlers hfresh (unique rs)
      s ev url cb h
  | onnoticeOp cb2 => exact h
  | onerrorOp cb2 =>
    have hne : cb2 ≠ cb := fun he2 => hop (by rw [he2])
    refine selFree_of_map RelayInstance.errorHandlers s _ url cb
      (fun v => { v with errorHandlers := v.errorHandlers ++ [cb2] })
      (lookupUrl_onerror s cb2 url) ?_ h
    intro v hv
    simp only [List.mem_append, List.mem_singleton]
    rintro (hc | hc)
    · exact hv hc
    · exact hne hc.symm
  | ondisconnectOp cb2 =>
    refine selFree_of_map RelayInstance.errorHandlers s _ url cb
      (fun v => { v with disconnectHandlers := v.disconnectHandlers ++ [cb2] })
      (lookupUrl_ondisconnect s cb2 url) ?_ h
    intro v hv
    exact hv

theorem discFree_step (s : PoolState) (op : Op) (url : String) (cb : Nat)
    (hop : op ≠ Op.ondisconnectOp cb)
    (h : ∀ inst, lookupUrl s.relayByUrl url = some inst →
      cb ∉ inst.disconnectHandlers) :
    ∀ inst, lookupUrl (step s op).relayByUrl url = some inst →
      cb ∉ inst.disconnectHandlers := by
  have hfresh : ∀ (n : Nat) (u2 : String),
      (RelayInstance.mk n u2 false [] []).disconnectHandlers = [] := fun _ _ => rfl
  cases op with
  | subscribeOp f r oe md he =>
    simp only [step]
    cases hs : subscribe s f r oe md he with
    | error e => exact h
    | ok p =>
      have hP : ∀ inst, lookupUrl (pushBatch s f r oe).relayByUrl url =
          some inst → cb ∉ inst.disconnectHandlers := h
      rcases subscribe_ok_cases s f r oe md he p hs with ⟨d, hmd, hd, hpeq⟩ | hpeq
      · rw [hpeq]
        intro inst hinst
        rw [(resetTimer_quiet (pushBatch s f r oe) d).1] at hinst
        exact hP inst hinst
      · rw [hpeq]
        exact selFree_sendSubscriptions RelayInstance.disconnectHandlers hfresh
          (pushBatch s f r oe) he url cb hP
  | sendSubsOp he =>
    exact selFree_sendSubscriptions RelayInstance.disconnectHandlers hfresh
      s he url cb h
  | timerFireOp =>
    simp only [step]
    cases ht : s.timer with
    | none => exact h
    | some hh =>
      exact selFree_sendSubscriptions RelayInstance.disconnectHandlers hfresh
        { s with
            timer := some hh
            timers := s.timers.filter (fun t => decide (t.1 ≠ hh)) }
        false url cb h
  | addRelayOp u =>
    exact selFree_addOrGetRelay RelayInstance.disconnectHandlers hfresh
      s u url cb h
  | connectOkOp u =>
    refine selFree_of_map RelayInstance.disconnectHandlers s _ url cb
      (fun v => if url = u then { v with noticeWired := true } else v)
      (lookupUrl_connectOk s u url) ?_ h
    intro v hv
    by_cases hq : url = u <;> simp [hq] <;> exact hv
  | publishOp ev rs =>
    exact selFree_publish RelayInstance.disconnectHandlers hfresh (unique rs)
      s ev url cb h
  | onnoticeOp cb2 => exact h
  | onerrorOp cb2 =>
    refine selFree_of_map RelayInstance.disconnectHandlers s _ url cb
      (fun v => { v with errorHandlers := v.errorHandlers ++ [cb2] })
      (lookupUrl_onerror s cb2 url) ?_ h
    intro v hv
    exact hv
  | ondisconnectOp cb2 =>
    have hne : cb2 ≠ cb := fun he2 => hop (by rw [he2])
    refine selFree_of_map RelayInstance.disconnectHandlers s _ url cb
      (fun v => { v with disconnectHandlers := v.disconnectHandlers ++ [cb2] })
      (lookupUrl_ondisconnect s cb2 url) ?_ h
    intro v hv
    simp only [List.mem_append, List.mem_singleton]
    rintro (hc | hc)
    · exact hv hc
    · exact hne hc.symm

theorem errFree_run (ops : List Op) :
    ∀ (s : PoolState) (url : String) (cb : Nat),
    (∀ op ∈ ops, op ≠ Op.onerrorOp cb) →
    (∀ inst, lookupUrl s.relayByUrl url = some inst →
      cb ∉ inst.errorHandlers) →
    ∀ inst, lookupUrl (run s ops).relayByUrl url = some inst →
      cb ∉ inst.errorHandlers := by
  induction ops with
  | nil => intro s url cb _ h; exact h
  | cons op rest ih =>
    intro s url cb hops h
    exact ih (step s op) url cb (fun o ho => hops o (List.mem_cons_of_mem _ ho))
      (errFree_step s op url cb (hops op (List.mem_cons_self _ _)) h)

theorem discFree_run (ops : List Op) :
    ∀ (s : PoolState) (url : String) (cb : Nat),
    (∀ op ∈ ops, op ≠ Op.ondisconnectOp cb) →
    (∀ inst, lookupUrl s.relayByUrl url = some inst →
      cb ∉ inst.disconnectHandlers) →
    ∀ inst, lookupUrl (run s ops).relayByUrl url = some inst →
      cb ∉ inst.disconnectHandlers := by
  induction ops with
  | nil => intro s url cb _ h; exact h
  | cons op rest ih =>
    intro s url cb hops h
    exact ih (step s op) url cb (fun o ho => hops o (List.mem_cons_of_mem _ ho))
      (discFree_step s op url cb (hops op (List.mem_cons_self _ _)) h)

theorem noticecbs_step_mono (s : PoolState) (op : Op) (cb : Nat)
    (h : cb ∈ s.noticecbs) : cb ∈ (step s op).noticecbs := by
  cases op with
  | subscribeOp f r oe md he =>
    simp only [step]
    cases hs : subscribe s f r oe md he with
    | error e => exact h
    | ok p =>
      rcases subscribe_ok_cases s f r oe md he p hs with ⟨d, hmd, hd, hpeq⟩ | hpeq
      · rw [hpeq]
        have hq := (resetTimer_quiet (pushBatch s f r oe) d).2.1
        show cb ∈ (resetTimer (pushBatch s f r oe) d).noticecbs
        rw [hq]
        exact h
      · rw [hpeq]
        obtain ⟨ws, h1, h2, h3, h4, h5, h6, h7, h8⟩ :=
          sendSubscriptions_components (pushBatch s f r oe) he
        show cb ∈ (sendSubscriptions (pushBatch s f r oe) he).1.noticecbs
        rw [h2]
        exact h
  | sendSubsOp he =>
    obtain ⟨ws, h1, h2, h3, h4, h5, h6, h7, h8⟩ :=
      sendSubscriptions_components s he
    show cb ∈ (sendSubscriptions s he).1.noticecbs
    rw [h2]
    exact h
  | timerFireOp =>
    simp only [step]
    cases ht : s.timer with
    | none => exact h
    | some hh =>
      obtain ⟨ws, h1, h2, h3, h4, h5, h6, h7, h8⟩ :=
        sendSubscriptions_components
          { s with
              timer := some hh
              timers := s.timers.filter (fun t => decide (t.1 ≠ hh)) } false
      show cb ∈ (sendSubscriptions
        { s with
            timer := some hh
            timers := s.timers.filter (fun t => decide (t.1 ≠ hh)) } false).1.noticecbs
      rw [h2]
      exact h
  | addRelayOp u =>
    simp only [step]
    obtain ⟨rel, n, hsh⟩ := addOrGetRelay_shape s u
    rw [hsh]
    exact h
  | connectOkOp u => exact h
  | publishOp ev rs =>
    show cb ∈ (publish s ev rs).noticecbs
    rw [(publish_components s ev rs).1]
    exact h
  | onnoticeOp cb2 =>
    simp only [step, onnotice]
    exact List.mem_append_left _ h
  | onerrorOp cb2 => exact h
  | ondisconnectOp cb2 => exact h

theorem noticecbs_run_mono (ops : List Op) :
    ∀ (s : PoolState) (cb : Nat),
      cb ∈ s.noticecbs → cb ∈ (run s ops).noticecbs := by
  induction ops with
  | nil => intro s cb h; exact h
  | cons op rest ih =>
    intro s cb h
    exact ih (step s op) cb (noticecbs_step_mono s op cb h)

/-- Claim C8: a callback registered with onnotice receives notices from every
connection, including connections created (and connected) after registration,
because notice delivery reads the pool's central list; onerror and
ondisconnect wire the callback only onto the connections present at
registration time, so after any later operations that do not re-register the
same callback, a relay that was absent at registration never delivers an
error or disconnect to it. -/
theorem observer_wiring :
    (∀ (s : PoolState) (cb : Nat) (ops : List Op) (url : String)
        (inst : RelayInstance),
      lookupUrl (run (onnotice s cb) ops).relayByUrl url = some inst →
      inst.noticeWired = true →
      cb ∈ deliverNotice (run (onnotice s cb) ops) url) ∧
    (∀ (s : PoolState) (cb : Nat), ∀ e ∈ (onerror s cb).relayByUrl,
      cb ∈ e.2.errorHandlers) ∧
    (∀ (s : PoolState) (cb : Nat), ∀ e ∈ (ondisconnect s cb).relayByUrl,
      cb ∈ e.2.disconnectHandlers) ∧
    (∀ (s : PoolState) (cb : Nat) (ops : List Op) (url : String),
      lookupUrl s.relayByUrl url = none →
      (∀ op ∈ ops, op ≠ Op.onerrorOp cb) →
      cb ∉ deliverError (run (onerror s cb) ops) url) ∧
    (∀ (s : PoolState) (cb : Nat) (ops : List Op) (url : String),
      lookupUrl s.relayByUrl url = none →
      (∀ op ∈ ops, op ≠ Op.ondisconnectOp cb) →
      cb ∉ deliverDisconnect (run (ondisconnect s cb) ops) url) := by
  refine ⟨?_, ?_, ?_, ?_, ?_⟩
  · intro s cb ops url inst hinst hwired
    have hmem : cb ∈ (onnotice s cb).noticecbs := by
      simp [onnotice]
    have hrun := noticecbs_run_mono ops (onnotice s cb) cb hmem
    simp only [deliverNotice, hinst, hwired, if_true]
    exact hrun
  · intro s cb e he
    simp only [onerror] at he
    obtain ⟨e0, he0, heq⟩ := List.mem_map.mp he
    rw [← heq]
    simp
  · intro s cb e he
    simp only [ondisconnect] at he
    obtain ⟨e0, he0, heq⟩ := List.mem_map.mp he
    rw [← heq]
    simp
  · intro s cb ops url hnone hops
    have hbase : ∀ inst, lookupUrl (onerror s cb).relayByUrl url = some inst →
        cb ∉ inst.errorHandlers := by
      intro inst hinst
      rw [lookupUrl_onerror, hnone] at hinst
      cases hinst
    have hfin := errFree_run ops (onerror s cb) url cb hops hbase
    intro hc
    simp only [deliverError] at hc
    cases hx : lookupUrl (run (onerror s cb) ops).relayByUrl url with
    | none => rw [hx] at hc; cases hc
    | some v =>
      rw [hx] at hc
      exact hfin v hx hc
  · intro s cb ops url hnone hops
    have hbase : ∀ inst,
        lookupUrl (ondisconnect s cb).relayByUrl url = some inst →
        cb ∉ inst.disconnectHandlers := by
      intro inst hinst
      rw [lookupUrl_ondisconnect, hnone] at hinst
      cases hinst
    have hfin := discFree_run ops (ondisconnect s cb) url cb hops hbase
    intro hc
    simp only [deliverDisconnect] at hc
    cases hx : lookupUrl (run (ondisconnect s cb) ops).relayByUrl url with
    | none => rw [hx] at hc; cases hc
    | some v =>
      rw [hx] at hc
      exact hfin v hx hc

theorem observer_wiring_witness :
    (initPool.relayByUrl.map Prod.fst = [] ∧
     lookupUrl initPool.relayByUrl "wss://a" = none ∧
     (∀ op ∈ ([Op.addRelayOp "wss://a", Op.connectOkOp "wss://a"] : List Op),
        op ≠ Op.onerrorOp 7) ∧
     (∀ op ∈ ([Op.addRelayOp "wss://a", Op.connectOkOp "wss://a"] : List Op),
        op ≠ Op.ondisconnectOp 7)) ∧
    (7 ∉ deliverError
        (run (onerror initPool 7)
          [Op.addRelayOp "wss://a", Op.connectOkOp "wss://a"]) "wss://a" ∧
     7 ∉ deliverDisconnect
        (run (ondisconnect initPool 7)
          [Op.addRelayOp "wss://a", Op.connectOkOp "wss://a"]) "wss://a") :=
  ⟨⟨by decide, by decide, by decide, by decide⟩,
   observer_wiring.2.2.2.1 initPool 7
     [Op.addRelayOp "wss://a", Op.connectOkOp "wss://a"] "wss://a"
     (by decide) (by decide),
   observer_wiring.2.2.2.2 initPool 7
     [Op.addRelayOp "wss://a", Op.connectOkOp "wss://a"] "wss://a"
     (by decide) (by decide)⟩

/-! The structure of a flush: exactly which wire subscriptions it opens. -/

theorem subscribeRelays_spec (m : FilterMap) :
    ∀ (s : PoolState) (oe : List OnEventId) (he : Bool), WfIds s →
    ∃ newSubs : List WireSub,
      (subscribeRelays s m oe he).1.wireSubs = s.wireSubs ++ newSubs ∧
      (subscribeRelays s m oe he).2 = newSubs.map (fun w => w.id) ∧
      newSubs.map
          (fun w => (w.relay, w.filters, w.onEvent, w.hasOnEose, w.active)) =
        (m.filter
            (fun e => decide (mergeSimilarAndRemoveEmptyFilters e.2 ≠ []))).map
          (fun e => (e.1, mergeSimilarAndRemoveEmptyFilters e.2, oe, he, true)) ∧
      (∀ w ∈ newSubs, s.nextId ≤ w.id) ∧
      WfIds (subscribeRelays s m oe he).1 := by
  induction m with
  | nil =>
    intro s oe he hwf
    refine ⟨[], by simp [subscribeRelays], by simp [subscribeRelays],
      by simp, by simp, ?_⟩
    simpa [subscribeRelays] using hwf
  | cons hd tl ih =>
    intro s oe he hwf
    obtain ⟨r, fs⟩ := hd
    by_cases hm : mergeSimilarAndRemoveEmptyFilters fs = []
    · have hsr : subscribeRelay s r fs oe he = (s, none) := by
        simp [subscribeRelay, hm]
      obtain ⟨newSubs, h1, h2, h3, h4, h5⟩ := ih s oe he hwf
      refine ⟨newSubs, ?_, ?_, ?_, h4, ?_⟩
      · simp only [subscribeRelays, hsr]
        exact h1
      · simp only [subscribeRelays, hsr]
        exact h2
      · simp only [List.filter_cons]
        rw [show (decide (mergeSimilarAndRemoveEmptyFilters (r, fs).2 ≠ []))
            = false from by simp [hm]]
        simpa using h3
      · simp only [subscribeRelays, hsr]
        exact h5
    · obtain ⟨rel, n, hsh⟩ := addOrGetRelay_shape s r
      have hle := addOrGetRelay_nextId_le s r
      rw [hsh] at hle
      simp at hle
      have hsr : subscribeRelay s r fs oe he =
          ({ s with
              relayByUrl := rel
              nextId := n + 1
              wireSubs := s.wireSubs ++
                [{ id := n
                   relay := r
                   filters := mergeSimilarAndRemoveEmptyFilters fs
                   onEvent := oe
                   hasOnEose := he
                   active := true }] }, some n) := by
        simp only [subscribeRelay, if_neg hm, hsh]
      have hwf1 : WfIds { s with
          relayByUrl := rel
          nextId := n + 1
          wireSubs := s.wireSubs ++
            [{ id := n
               relay := r
               filters := mergeSimilarAndRemoveEmptyFilters fs
               onEvent := oe
               hasOnEose := he
               active := true }] } := by
        intro w hw
        rcases List.mem_append.mp hw with hw1 | hw1
        · have := hwf w hw1
          simp only
          omega
        · simp only [List.mem_singleton] at hw1
          rw [hw1]
          simp
      obtain ⟨rest, h1, h2, h3, h4, h5⟩ := ih _ oe he hwf1
      refine ⟨{ id := n
                relay := r
                filters := mergeSimilarAndRemoveEmptyFilters fs
                onEvent := oe
                hasOnEose := he
                active := true } :: rest, ?_, ?_, ?_, ?_, ?_⟩
      · simp only [subscribeRelays, hsr]
        rw [h1]
        simp
      · simp only [subscribeRelays, hsr]
        rw [h2]
        simp
      · simp only [List.filter_cons]
        rw [show (decide (mergeSimilarAndRemoveEmptyFilters (r, fs).2 ≠ []))
            = true from by simp [hm]]
        simp only [if_true, List.map_cons, h3]
      · intro w hw
        rcases List.mem_cons.mp hw with hw1 | hw1
        · rw [hw1]
          exact hle
        · have := h4 w hw1
          simp only at this
          omega
      · simp only [subscribeRelays, hsr]
        exact h5

theorem sendSubscriptions_spec (s : PoolState) (he : Bool)
    (hinv : TimerInv s) (hwf : WfIds s) :
    ∃ (s1 : PoolState) (newSubs : List WireSub),
      sendSubscriptions s he =
        (s1, CancelFn.unsubAll (newSubs.map (fun w => w.id))) ∧
      s1.timer = none ∧ s1.timers = [] ∧ s1.minMaxDelayms = none ∧
      s1.filtersToSubscribe = [] ∧
      s1.wireSubs = s.wireSubs ++ newSubs ∧
      newSubs.map
          (fun w => (w.relay, w.filters, w.onEvent, w.hasOnEose, w.active)) =
        (((batchFiltersByRelay s.filtersToSubscribe).2).filter
            (fun e => decide (mergeSimilarAndRemoveEmptyFilters e.2 ≠ []))).map
          (fun e => (e.1, mergeSimilarAndRemoveEmptyFilters e.2,
            (batchFiltersByRelay s.filtersToSubscribe).1, he, true)) ∧
      (applyCancel s1
          (CancelFn.unsubAll (newSubs.map (fun w => w.id)))).wireSubs =
        s.wireSubs ++ newSubs.map (fun w => { w with active := false }) := by
  obtain ⟨newSubs, h1, h2, h3, h4, h5⟩ :=
    subscribeRelays_spec (batchFiltersByRelay s.filtersToSubscribe).2
      (preFlushState s) (batchFiltersByRelay s.filtersToSubscribe).1 he hwf
  obtain ⟨ws2, g1, g2, g3, g4, g5, g6, g7, g8⟩ := sendSubscriptions_components s he
  have hnil := clearPoolTimer_timers_nil s hinv
  simp only [clearPoolTimer] at hnil
  have hpair : sendSubscriptions s he =
      ((subscribeRelays (preFlushState s)
          (batchFiltersByRelay s.filtersToSubscribe).2
          (batchFiltersByRelay s.filtersToSubscribe).1 he).1,
        CancelFn.unsubAll
          ((subscribeRelays (preFlushState s)
            (batchFiltersByRelay s.filtersToSubscribe).2
            (batchFiltersByRelay s.filtersToSubscribe).1 he).2)) := rfl
  refine ⟨(subscribeRelays (preFlushState s)
      (batchFiltersByRelay s.filtersToSubscribe).2
      (batchFiltersByRelay s.filtersToSubscribe).1 he).1, newSubs,
    ?_, g5, ?_, g3, g4, h1, h3, ?_⟩
  · rw [hpair, h2]
  · rw [show (subscribeRelays (preFlushState s)
        (batchFiltersByRelay s.filtersToSubscribe).2
        (batchFiltersByRelay s.filtersToSubscribe).1 he).1 =
        (sendSubscriptions s he).1 from rfl]
    rw [g6, hnil]
  · have hold : ∀ w ∈ s.wireSubs,
        (if w.id ∈ newSubs.map (fun w2 => w2.id)
          then { w with active := false } else w) = w := by
      intro w hw
      rw [if_neg]
      intro hc
      obtain ⟨w2, hw2, hww⟩ := List.mem_map.mp hc
      have hge := h4 w2 hw2
      have hlt := hwf w hw
      rw [show (preFlushState s).nextId = s.nextId from rfl] at hge
      omega
    have hnew : ∀ w ∈ newSubs,
        (if w.id ∈ newSubs.map (fun w2 => w2.id)
          then { w with active := false } else w) =
          { w with active := false } := by
      intro w hw
      rw [if_pos (List.mem_map_of_mem _ hw)]
    have happ : (applyCancel
        (subscribeRelays (preFlushState s)
          (batchFiltersByRelay s.filtersToSubscribe).2
          (batchFiltersByRelay s.filtersToSubscribe).1 he).1
        (CancelFn.unsubAll (newSubs.map (fun w => w.id)))).wireSubs =
        ((subscribeRelays (preFlushState s)
          (batchFiltersByRelay s.filtersToSubscribe).2
          (batchFiltersByRelay s.filtersToSubscribe).1 he).1).wireSubs.map
          (fun w => if w.id ∈ newSubs.map (fun w2 => w2.id)
            then { w with active := false } else w) := rfl
    rw [happ, h1, List.map_append]
    rw [show (preFlushState s).wireSubs = s.wireSubs from rfl]
    rw [List.map_congr_left hold, List.map_congr_left hnew]
    simp

/-- Claim C3 counterexample: in c3State the routed mapping names exactly one
relay, yet the flush opens no wire subscription at all and creates no
connection — that relay's filters merge-and-remove-empties to the empty list
and the subscribe-relay step skips it, so a flush does not open one wire
subscription per relay in the mapping. -/
theorem sendSubscriptions_skips_empty_relay :
    (batchFiltersByRelay c3State.filtersToSubscribe).2 =
      [("wss://a", [({} : NostrFilter)])] ∧
    (sendSubscriptions c3State false).1.wireSubs = [] ∧
    (sendSubscriptions c3State false).1.relayByUrl = [] :=
  ⟨by decide, by decide, by decide⟩

/-- Claim C3 (amended): every sendSubscriptions call cancels the pending
timer, resets the debounce state (minimum delay back to Infinity, timer
handle cleared), routes the entire accumulated batch into one merged callback
and one relay-to-filters mapping, clears the batch, opens one wire
subscription per relay of the mapping whose filters merge to a nonempty set
(a relay whose filters merge-and-remove-empties to the empty set is skipped),
and returns a closure whose invocation unsubscribes exactly the wire
subscriptions opened by that flush. -/
theorem sendSubscriptions_flush_spec (s : PoolState) (he : Bool)
    (hinv : TimerInv s) (hwf : WfIds s) :
    ∃ (s1 : PoolState) (newSubs : List WireSub),
      sendSubscriptions s he =
        (s1, CancelFn.unsubAll (newSubs.map (fun w => w.id))) ∧
      s1.timer = none ∧ s1.timers = [] ∧ s1.minMaxDelayms = none ∧
      s1.filtersToSubscribe = [] ∧
      s1.wireSubs = s.wireSubs ++ newSubs ∧
      newSubs.map
          (fun w => (w.relay, w.filters, w.onEvent, w.hasOnEose, w.active)) =
        (((batchFiltersByRelay s.filtersToSubscribe).2).filter
            (fun e => decide (mergeSimilarAndRemoveEmptyFilters e.2 ≠ []))).map
          (fun e => (e.1, mergeSimilarAndRemoveEmptyFilters e.2,
            (batchFiltersByRelay s.filtersToSubscribe).1, he, true)) ∧
      (applyCancel s1
          (CancelFn.unsubAll (newSubs.map (fun w => w.id)))).wireSubs =
        s.wireSubs ++ newSubs.map (fun w => { w with active := false }) :=
  sendSubscriptions_spec s he hinv hwf

theorem sendSubscriptions_flush_spec_witness :
    (TimerInv c3WitState ∧ WfIds c3WitState) ∧
    (∃ (s1 : PoolState) (newSubs : List WireSub),
      sendSubscriptions c3WitState false =
        (s1, CancelFn.unsubAll (newSubs.map (fun w => w.id))) ∧
      s1.timer = none ∧ s1.timers = [] ∧ s1.minMaxDelayms = none ∧
      s1.filtersToSubscribe = [] ∧
      s1.wireSubs = c3WitState.wireSubs ++ newSubs ∧
      newSubs.map
          (fun w => (w.relay, w.filters, w.onEvent, w.hasOnEose, w.active)) =
        (((batchFiltersByRelay c3WitState.filtersToSubscribe).2).filter
            (fun e => decide (mergeSimilarAndRemoveEmptyFilters e.2 ≠ []))).map
          (fun e => (e.1, mergeSimilarAndRemoveEmptyFilters e.2,
            (batchFiltersByRelay c3WitState.filtersToSubscribe).1, false, true)) ∧
      (applyCancel s1
          (CancelFn.unsubAll (newSubs.map (fun w => w.id)))).wireSubs =
        c3WitState.wireSubs ++
          newSubs.map (fun w => { w with active := false })) :=
  ⟨⟨by decide, by decide⟩,
   sendSubscriptions_flush_spec c3WitState false (by decide) (by decide)⟩

/-- Claim C6: subscribe with a truthy maxDelayms returns the no-op cancel
closure — invoking the no-op closure changes no pool state and tears nothing
down — while subscribe without maxDelayms flushes synchronously and returns a
live unsubscribe closure that deactivates exactly the wire subscriptions
opened by that flush. -/
theorem subscribe_cancel_semantics :
    (∀ (s : PoolState) (filters : List NostrFilter) (relays : List String)
        (oe : OnEventId) (d : Nat), d ≠ 0 →
      ∃ s1, subscribe s filters relays oe (some d) false =
        .ok (s1, CancelFn.noop)) ∧
    (∀ t : PoolState, applyCancel t CancelFn.noop = t) ∧
    (∀ (s : PoolState) (filters : List NostrFilter) (relays : List String)
        (oe : OnEventId) (he : Bool), TimerInv s → WfIds s →
      ∃ (s1 : PoolState) (newSubs : List WireSub),
        subscribe s filters relays oe none he =
          .ok (s1, CancelFn.unsubAll (newSubs.map (fun w => w.id))) ∧
        s1.filtersToSubscribe = [] ∧ s1.timer = none ∧
        s1.wireSubs = s.wireSubs ++ newSubs ∧
        (∀ w ∈ newSubs, w.active = true) ∧
        (applyCancel s1
            (CancelFn.unsubAll (newSubs.map (fun w => w.id)))).wireSubs =
          s.wireSubs ++ newSubs.map (fun w => { w with active := false })) := by
  refine ⟨?_, ?_, ?_⟩
  · intro s filters relays oe d hd
    exact ⟨resetTimer (pushBatch s filters relays oe) d,
      by simp [subscribe, truthy, hd]⟩
  · intro t
    rfl
  · intro s filters relays oe he hinv hwf
    have hinvP : TimerInv (pushBatch s filters relays oe) := ⟨hinv.1, hinv.2⟩
    have hwfP : WfIds (pushBatch s filters relays oe) := hwf
    obtain ⟨s1, newSubs, hpair, ht, hts, hm2, hf, hws, hmap, hcancel⟩ :=
      sendSubscriptions_spec (pushBatch s filters relays oe) he hinvP hwfP
    refine ⟨s1, newSubs, ?_, hf, ht, hws, ?_, hcancel⟩
    · rw [show subscribe s filters relays oe none he =
          .ok (sendSubscriptions (pushBatch s filters relays oe) he) from by
        simp [subscribe, truthy], hpair]
    · intro w hw
      have hmem : (w.relay, w.filters, w.onEvent, w.hasOnEose, w.active) ∈
          newSubs.map
            (fun w2 => (w2.relay, w2.filters, w2.onEvent, w2.hasOnEose,
              w2.active)) :=
        List.mem_map_of_mem _ hw
      rw [hmap] at hmem
      obtain ⟨e, hel, heq⟩ := List.mem_map.mp hmem
      have hproj := congrArg (fun t =>
        (((t.2).2).2).2) heq
      simpa using hproj.symm

theorem subscribe_cancel_semantics_witness :
    ((5 : Nat) ≠ 0 ∧ TimerInv initPool ∧ WfIds initPool) ∧
    (∃ s1, subscribe initPool [fA] ["wss://a"] 0 (some 5) false =
      .ok (s1, CancelFn.noop)) ∧
    (∃ (s1 : PoolState) (newSubs : List WireSub),
      subscribe initPool [fA] ["wss://a"] 0 none false =
        .ok (s1, CancelFn.unsubAll (newSubs.map (fun w => w.id))) ∧
      s1.filtersToSubscribe = [] ∧ s1.timer = none ∧
      s1.wireSubs = initPool.wireSubs ++ newSubs ∧
      (∀ w ∈ newSubs, w.active = true) ∧
      (applyCancel s1
          (CancelFn.unsubAll (newSubs.map (fun w => w.id)))).wireSubs =
        initPool.wireSubs ++
          newSubs.map (fun w => { w with active := false })) :=
  ⟨⟨by decide, by decide, by decide⟩,
   subscribe_cancel_semantics.1 initPool [fA] ["wss://a"] 0 5 (by decide),
   subscribe_cancel_semantics.2.2 initPool [fA] ["wss://a"] 0 false
     (by decide) (by decide)⟩

theorem publish_once_per_distinct_witness :
    ("wss://a" ∈ (["wss://a", "wss://b", "wss://a"] : List String)) ∧
    (lookupUrl
        (publish initPool 42 ["wss://a", "wss://b", "wss://a"]).relayByUrl
        "wss://a").isSome :=
  ⟨by decide,
   (publish_once_per_distinct initPool 42
      ["wss://a", "wss://b", "wss://a"]).2.2.2.2 "wss://a" (by decide)⟩
